import Mathlib

/-!
Shallow embedding of `src/main.go` of peferb/thumbnailer.

Go strings are modelled as Lean `String` (for messages and report text) or
`List Char` (for file paths, where the byte-level suffix/extension logic of
`strings`/`path/filepath` is mirrored).  Go `int` is modelled as `Int`,
`time.Duration` as `Nat` (nanoseconds).  External effects (exiftool, file
open, image decode, image save) are modelled by boolean oracles, one set per
`processImage` invocation.
-/

namespace Thumbnailer

/-- Source line 35: `const maxRetries = 1`. -/
def maxRetries : Nat := 1

/-- Outcome of one job's full retry sequence, as recorded into the shared
counters by the worker goroutine (lines 117-135): a success carries the
duration of the succeeding attempt. -/
inductive JobOutcome where
  | success (d : Nat)
  | failure
deriving Repr, DecidableEq

/-- Whether an outcome is a success. -/
def JobOutcome.isSuccess : JobOutcome → Bool
  | .success _ => true
  | .failure => false

/-- Abstraction of one job at the `processImage(file)` call boundary:
`attempt i` is the result of the i-th call (1-indexed) made for that job,
`some d` meaning a nil error with elapsed duration `d`, `none` meaning a
non-nil error (on which the Go code returns duration 0 and discards it). -/
abbrev JobOracle := Nat → Option Nat

/-- Embedding of the retry loop body, lines 117-135.  The Go loop state is
`retries` with guard `retries < maxRetries`; here `remaining = maxRetries -
retries` (so the guard is `remaining > 0`) and `attemptNo = retries + 1` is
the 1-indexed number of the next `processImage` call.  On error the code
does `retries++` and records an error exactly when `retries == maxRetries`,
i.e. exactly when `remaining = 1`; on success it records the success and
breaks.  `none` means the loop exited without recording anything (only
possible when the attempt budget is 0, where the Go loop body never runs). -/
def retryLoop (attempt : JobOracle) (attemptNo : Nat) : Nat → Option JobOutcome
  | 0 => none
  | remaining + 1 =>
    match attempt attemptNo with
    | some d => some (.success d)
    | none => if remaining = 0 then some .failure else retryLoop attempt (attemptNo + 1) remaining

/-- The single outcome a job's retry sequence records, for attempt budget
`k` (the code instantiates `k = maxRetries`). -/
def jobOutcome (attempt : JobOracle) (k : Nat) : Option JobOutcome :=
  retryLoop attempt 1 k

/-- The shared mutable state of a run (lines 105-107): `successCount`,
`errorCount` and the `durations` slice, all mutated under `mu`. -/
structure RunStats where
  successCount : Nat
  errorCount : Nat
  durations : List Nat
deriving Repr, DecidableEq

/-- One mutex-protected update of the shared counters (lines 124-132):
an error increments `errorCount`; a success increments `successCount` and
appends the succeeding attempt's duration. -/
def record (s : RunStats) : JobOutcome → RunStats
  | .success d => { s with successCount := s.successCount + 1, durations := s.durations ++ [d] }
  | .failure => { s with errorCount := s.errorCount + 1 }

/-- Final shared state after the fork-join barrier (`wg.Wait()`, line 139).
Each worker records at most one outcome under the mutex; the mutex
serialises the records, so the final state is the left fold of `record`
over the outcomes in completion order.  `order` is the job list in the
(nondeterministic) order in which the workers' terminal `mu.Lock()`
sections ran; theorems quantify over all permutations of the file list. -/
def finalStats (order : List JobOracle) : RunStats :=
  (order.filterMap (fun a => jobOutcome a maxRetries)).foldl record ⟨0, 0, []⟩

/-- The package-level flag variables (lines 24-33) that `run`,
`readConfig` and `processImage` read.  `parallelism` is `Int` because the
flag is a Go `int` and nothing prevents non-positive values. -/
structure Flags where
  inputPath : String
  outputPath : String
  compression : Int
  maxWidth : Int
  maxHeight : Int
  outputFormat : String
  parallelism : Int
deriving Repr, DecidableEq

/-- A JSON value as seen through Go's `json.Unmarshal` into
`map[string]interface{}`: strings stay strings, all JSON numbers become
`float64` (modelled here on integral values, which `int(v)` maps to the
same integer), and anything else has a type the assertions in
`readConfig` reject. -/
inductive JVal where
  | jstr (s : String)
  | jnum (x : Int)
  | jother
deriving Repr, DecidableEq

/-- Lines 178-180: `if v, ok := config["input"].(string); ok`. -/
def applyInput (v : Option JVal) (f : Flags) : Flags :=
  match v with | some (.jstr s) => { f with inputPath := s } | _ => f

/-- Lines 181-183: the `output` key. -/
def applyOutput (v : Option JVal) (f : Flags) : Flags :=
  match v with | some (.jstr s) => { f with outputPath := s } | _ => f

/-- Lines 184-186: the `compression` key (`float64` assertion, then
`int(v)`). -/
def applyCompression (v : Option JVal) (f : Flags) : Flags :=
  match v with | some (.jnum x) => { f with compression := x } | _ => f

/-- Lines 187-189: the `width` key. -/
def applyWidth (v : Option JVal) (f : Flags) : Flags :=
  match v with | some (.jnum x) => { f with maxWidth := x } | _ => f

/-- Lines 190-192: the `height` key. -/
def applyHeight (v : Option JVal) (f : Flags) : Flags :=
  match v with | some (.jnum x) => { f with maxHeight := x } | _ => f

/-- Lines 193-195: the `format` key. -/
def applyFormat (v : Option JVal) (f : Flags) : Flags :=
  match v with | some (.jstr s) => { f with outputFormat := s } | _ => f

/-- Embedding of `readConfig` (lines 167-198) after a successful read and
unmarshal: the six type-asserted key blocks run in source order, each
overwriting its flag when the key is present with the asserted type.
`cfg` maps a key to the JSON value stored under it, `none` when absent. -/
def readConfigApply (cfg : String → Option JVal) (f : Flags) : Flags :=
  applyFormat (cfg "format")
    (applyHeight (cfg "height")
      (applyWidth (cfg "width")
        (applyCompression (cfg "compression")
          (applyOutput (cfg "output")
            (applyInput (cfg "input") f)))))

/-- How a `run` invocation terminates, at the granularity the claims
need.  `fatalSetup` is a `log.Fatalf` before the processing loop;
`panicked` is the runtime panic of `make(chan struct{}, n)` with `n < 0`
(line 104); `deadlocked` is the first `sem <- struct{}{}` (line 111)
blocking forever on a zero-capacity channel whose only receivers are the
goroutines spawned after the send; `done` is a normal completion
returning the final shared state. -/
inductive RunOutcome where
  | fatalSetup (msg : String)
  | panicked
  | deadlocked
  | done (stats : RunStats)
deriving Repr, DecidableEq

/-- Whether the outcome is a reported fatal setup error (`log.Fatalf`). -/
def RunOutcome.isFatal : RunOutcome → Bool
  | .fatalSetup _ => true
  | _ => false

/-- Message of the dimension check, line 78. -/
def dimsMsg : String := "Either max width or max height must be specified"

/-- Message prefix of line 83. -/
def mkdirMsg : String := "Error creating output directory"

/-- Message prefix of line 97. -/
def walkMsg : String := "Error reading input path"

/-- Message prefix of line 73. -/
def configMsg : String := "Error reading config file"

/-- Embedding of `run` from the dimension check onward (lines 77-145),
with the config step already applied to `flags`.  `mkdirErr` / `walkErr`
are the oracles for `os.MkdirAll` and `filepath.Walk`; `files` is the
walked file list at the `processImage` boundary; `order` is the workers'
completion order (a permutation of `files` on a completed run).  The
second component is the number of `processImage` invocations that were
started: the fatal branches run before the loop, the channel allocation
panic (negative capacity) runs before the loop, and with capacity 0 and a
nonempty file list the main goroutine blocks on `sem <-` at line 111
before `go func` at line 113 ever runs, so all of these start 0 jobs. -/
def runAfterConfig (flags : Flags) (mkdirErr walkErr : Bool)
    (files order : List JobOracle) : RunOutcome × Nat :=
  if flags.maxWidth = 0 ∧ flags.maxHeight = 0 then (.fatalSetup dimsMsg, 0)
  else if mkdirErr then (.fatalSetup mkdirMsg, 0)
  else if walkErr then (.fatalSetup walkMsg, 0)
  else if flags.parallelism < 0 then (.panicked, 0)
  else if flags.parallelism = 0 ∧ files.isEmpty = false then (.deadlocked, 0)
  else (.done (finalStats order), files.length)

/-- Embedding of `run` (lines 70-145): when a config file is supplied it
is read first — a read/parse failure is fatal, otherwise its keys
overwrite the flags — and only then the validation and processing run. -/
def runModel (cfgFile : Option (Except Unit (String → Option JVal))) (flags : Flags)
    (mkdirErr walkErr : Bool) (files order : List JobOracle) : RunOutcome × Nat :=
  match cfgFile with
  | some (.error _) => (.fatalSetup configMsg, 0)
  | some (.ok m) => runAfterConfig (readConfigApply m flags) mkdirErr walkErr files order
  | none => runAfterConfig flags mkdirErr walkErr files order

/-- State of the admission gate of lines 103-139 for one run: `launched`
counts loop iterations that completed both the `sem <- struct{}{}` send
(line 111) and the `go func` spawn (line 113) — the for loop performs this
pair exactly once per file, in file order — and `finished` counts workers
whose deferred `<-sem` release ran (line 115).  The buffered channel's
occupancy is `launched - finished`. -/
structure SemState where
  launched : Nat
  finished : Nat
deriving Repr, DecidableEq

/-- Transitions of the admission gate with `N` files and channel capacity
`P`: the main goroutine may launch the next worker only while a buffer
slot is free (a send on a buffered channel succeeds only when its
occupancy is below capacity), and any launched, unfinished worker may
finish, releasing its slot. -/
inductive SemStep (N P : Nat) : SemState → SemState → Prop
  | launch (s : SemState) : s.launched < N → s.launched - s.finished < P →
      SemStep N P s ⟨s.launched + 1, s.finished⟩
  | finish (s : SemState) : s.finished < s.launched →
      SemStep N P s ⟨s.launched, s.finished + 1⟩

/-- States reachable from the start of the processing loop. -/
inductive SemReach (N P : Nat) : SemState → Prop
  | init : SemReach N P ⟨0, 0⟩
  | step {s t : SemState} : SemReach N P s → SemStep N P s t → SemReach N P t

/-! Path-name functions of `strings` and `path/filepath`, on `List Char`. -/

/-- Go `strings.TrimSuffix`: drop `suffix` from the end when present,
otherwise return the input unchanged. -/
def trimSuffixChars (cs suffix : List Char) : List Char :=
  if suffix.isSuffixOf cs then cs.take (cs.length - suffix.length) else cs

/-- Go `filepath.Base` on unix: "." for the empty path, then trailing
separators stripped; "/" when only separators remain; otherwise the part
after the last separator. -/
def goBaseChars (cs : List Char) : List Char :=
  if cs = [] then ['.']
  else if cs.reverse.dropWhile (fun c => c = '/') = [] then ['/']
  else ((cs.reverse.dropWhile (fun c => c = '/')).takeWhile (fun c => c ≠ '/')).reverse

/-- Go `filepath.Ext`: scanning backwards from the end of the path and
stopping at the first separator, the suffix from the last dot (inclusive),
or empty when the final element has no dot. -/
def goExtChars (cs : List Char) : List Char :=
  if (cs.reverse.takeWhile (fun c => c ≠ '/')).any (fun c => c = '.') then
    (((cs.reverse.takeWhile (fun c => c ≠ '/')).takeWhile (fun c => c ≠ '.')) ++ ['.']).reverse
  else []

/-- Lines 207-218: a `.cr3` input is first materialised as the sibling
`.jpg` produced by exiftool, and `file` is rebound to that intermediate;
all other inputs are processed as-is. -/
def effectiveFileChars (file : List Char) : List Char :=
  if ".cr3".data.isSuffixOf file then trimSuffixChars file ".cr3".data ++ ".jpg".data else file

/-- Line 239: the output path,
`filepath.Join(outputPath, TrimSuffix(Base(file), Ext(file)) + "." + outputFormat)`,
computed on the post-cr3 `file` binding.  `filepath.Join` is modelled as
separator concatenation (its `Clean` normalisation is orthogonal to the
naming claims). -/
def outputFileOf (outputPath outputFormat file : List Char) : List Char :=
  outputPath ++ '/' ::
    (trimSuffixChars (goBaseChars (effectiveFileChars file)) (goExtChars (effectiveFileChars file))
      ++ '.' :: outputFormat)

/-- Which encoder call the switch at lines 240-251 makes: `jpeg` saves
with `imaging.JPEGQuality(compression)`, the three other recognised
formats save with no encoder options, and anything else makes no save
call at all and returns the unsupported-format error. -/
inductive SaveCall where
  | jpegWithQuality (q : Int)
  | plain
  | unsupported
deriving Repr, DecidableEq

/-- The switch dispatch of lines 240-251 as a function of the format and
the compression flag. -/
def saveDispatch (format : List Char) (compression : Int) : SaveCall :=
  if format = "jpeg".data then .jpegWithQuality compression
  else if format = "png".data then .plain
  else if format = "gif".data then .plain
  else if format = "bmp".data then .plain
  else .unsupported

/-- Default of the `--compression` flag, line 55. -/
def compressionDefault : Int := 75

/-- The package-level configuration `processImage` reads. -/
structure PConfig where
  outputPath : List Char
  outputFormat : List Char
  compression : Int
deriving Repr, DecidableEq

/-- External-world results for one `processImage` invocation. -/
structure PEnv where
  exiftoolOk : Bool
  openOk : Bool
  decodeOk : Bool
  saveOk : Bool
  elapsed : Nat
deriving Repr, DecidableEq

/-- Embedding of `processImage` (lines 200-262).  Every error path of the
Go function returns a zero duration and a non-nil error, modelled as
`.error` with the message's fixed prefix; success returns the elapsed
time of this invocation alone.  The resize step (lines 231-237) is a pure
in-memory transform with no error branch and is not modelled further. -/
def processImage (cfg : PConfig) (env : PEnv) (file : List Char) : Except String Nat :=
  if ".cr3".data.isSuffixOf file ∧ env.exiftoolOk = false then
    .error "error converting CR3 to JPEG"
  else if env.openOk = false then .error "error opening image file"
  else if env.decodeOk = false then .error "error decoding image file"
  else
    match saveDispatch cfg.outputFormat cfg.compression with
    | .unsupported => .error "unsupported output format"
    | _ => if env.saveOk then .ok env.elapsed else .error "error saving image"

/-- The output paths `imaging.Save` is invoked on during one
`processImage` call: none when the call errors before the switch or when
the format is unrecognised, and exactly the line-239 path otherwise. -/
def savedOutputs (cfg : PConfig) (env : PEnv) (file : List Char) : List (List Char) :=
  if ".cr3".data.isSuffixOf file ∧ env.exiftoolOk = false then []
  else if env.openOk = false then []
  else if env.decodeOk = false then []
  else
    match saveDispatch cfg.outputFormat cfg.compression with
    | .unsupported => []
    | _ => [outputFileOf cfg.outputPath cfg.outputFormat file]

/-! Report generation, lines 147-165. -/

/-- Rendering of a `time.Duration` by the `%v` verb.  The claims only
inspect the line structure of the report, never the digits of a duration;
this models the rendering for sub-microsecond values (for which Go prints
the nanosecond count followed by "ns") and is used uniformly as the
placeholder for `%v`. -/
def fmtDuration (n : Nat) : String := toString n ++ "ns"

/-- The five-line header `fmt.Sprintf` of lines 148-153 (each line is
terminated by a newline inside the one format string). -/
def summaryHeader (total success errors duration : Nat) : String :=
  "Summary Report:\nTotal images processed: " ++ toString total ++
    "\nSuccessfully processed: " ++ toString success ++
    "\nErrors encountered: " ++ toString errors ++
    "\nTotal time taken: " ++ fmtDuration duration ++ "\n"

/-- The `fmt.Sprintf("Image %d processing time: %v\n", i+1, d)` appended
per recorded duration at line 156, for printed index `i` (the code passes
`i+1`). -/
def imageLineN (i d : Nat) : String :=
  "Image " ++ toString i ++ " processing time: " ++ fmtDuration d ++ "\n"

/-- Embedding of `generateSummaryReport` (lines 147-157): the header
string, then one appended line per element of `durations`, numbered from
1 in slice order. -/
def generateSummaryReport (total success errors duration : Nat)
    (durations : List Nat) : String :=
  durations.enum.foldl (fun r p => r ++ imageLineN (p.1 + 1) p.2)
    (summaryHeader total success errors duration)

/-- A header or numbered line of the report as the spec describes it,
without its trailing newline. -/
def imageLine (i d : Nat) : String :=
  "Image " ++ toString i ++ " processing time: " ++ fmtDuration d

/-- The report's five header lines, newline-free, as the spec lists them. -/
def reportHeaderLines (total success errors duration : Nat) : List String :=
  ["Summary Report:",
   "Total images processed: " ++ toString total,
   "Successfully processed: " ++ toString success,
   "Errors encountered: " ++ toString errors,
   "Total time taken: " ++ fmtDuration duration]

/-! Helper lemmas. -/

/-- With the source's attempt budget of 1, the retry sequence records
exactly one outcome, decided by the first attempt. -/
theorem jobOutcome_one (a : JobOracle) :
    jobOutcome a 1 = some (match a 1 with | some d => .success d | none => .failure) := by
  unfold jobOutcome retryLoop
  cases a 1 <;> simp

theorem filterMap_jobOutcome_one (order : List JobOracle) :
    order.filterMap (fun a => jobOutcome a 1)
      = order.map (fun a => match a 1 with | some d => JobOutcome.success d | none => .failure) := by
  have h : (fun a : JobOracle => jobOutcome a 1)
      = some ∘ (fun a : JobOracle => match a 1 with
          | some d => JobOutcome.success d | none => .failure) :=
    funext fun a => jobOutcome_one a
  rw [h, List.filterMap_eq_map]

theorem foldl_record_sum (outs : List JobOutcome) :
    ∀ s : RunStats,
      (outs.foldl record s).successCount + (outs.foldl record s).errorCount
        = s.successCount + s.errorCount + outs.length := by
  induction outs with
  | nil => intro s; simp
  | cons o l ih =>
    intro s
    cases o <;> simp [List.foldl_cons, record, ih] <;> omega

theorem foldl_record_succ (outs : List JobOutcome) :
    ∀ s : RunStats,
      (outs.foldl record s).successCount
        = s.successCount + (outs.countP JobOutcome.isSuccess) := by
  induction outs with
  | nil => intro s; simp
  | cons o l ih =>
    intro s
    cases o <;> simp [List.foldl_cons, record, ih, List.countP_cons, JobOutcome.isSuccess] <;> omega

theorem foldl_record_durlen (outs : List JobOutcome) :
    ∀ s : RunStats,
      (outs.foldl record s).durations.length
        = s.durations.length + (outs.countP JobOutcome.isSuccess) := by
  induction outs with
  | nil => intro s; simp
  | cons o l ih =>
    intro s
    cases o <;> simp [List.foldl_cons, record, ih, List.countP_cons, JobOutcome.isSuccess] <;> omega

/-- The durations slice holds exactly one entry per recorded success. -/
theorem finalStats_durlen (order : List JobOracle) :
    (finalStats order).durations.length = (finalStats order).successCount := by
  unfold finalStats
  rw [foldl_record_durlen, foldl_record_succ]
  simp

/-! Theorems for the claims. -/

/-- C1: for every run over a job list of size N with concurrency limit
P ≥ 1 (and a configuration passing validation), the run reaches the
fork-join barrier and afterwards `successCount + errorCount = N`, each
job's retry sequence having recorded exactly one outcome, whatever the
completion order of the workers. -/
theorem c1_counts_sum (flags : Flags) (files order : List JobOracle)
    (hdims : ¬(flags.maxWidth = 0 ∧ flags.maxHeight = 0))
    (hp : 1 ≤ flags.parallelism) (hperm : order.Perm files) :
    runAfterConfig flags false false files order = (.done (finalStats order), files.length) ∧
    (finalStats order).successCount + (finalStats order).errorCount = files.length := by
  constructor
  · unfold runAfterConfig
    have h1 : ¬ flags.parallelism < 0 := by omega
    have h2 : ¬ flags.parallelism = 0 := by omega
    simp [hdims, h1, h2]
  · unfold finalStats
    rw [show maxRetries = 1 from rfl, filterMap_jobOutcome_one, foldl_record_sum]
    simp [hperm.length_eq]

/-- C1 witness: a two-job run (one succeeding, one failing) with limit 1. -/
theorem c1_counts_sum_witness :
    runAfterConfig ⟨"in", "out", 75, 200, 0, "jpeg", 1⟩ false false
        [fun _ => some 7, fun _ => none] [fun _ => some 7, fun _ => none]
      = (.done (finalStats [fun _ => some 7, fun _ => none]), 2) ∧
    (finalStats [fun _ => some 7, fun _ => none]).successCount
      + (finalStats [fun _ => some 7, fun _ => none]).errorCount = 2 :=
  c1_counts_sum ⟨"in", "out", 75, 200, 0, "jpeg", 1⟩
    [fun _ => some 7, fun _ => none] [fun _ => some 7, fun _ => none]
    (by simp) (by decide) (List.Perm.refl _)

/-- C2: in every reachable state of the admission gate, at most P workers
are in flight (so at most P `processImage` invocations execute
concurrently, each worker running at most one at a time), no more than
the N enumerated files ever have a worker launched — the loop launches
each file's worker exactly once, in file order — and when P ≥ 1 the run
can reach the state where all N workers were launched and finished. -/
theorem c2_bounded_concurrency (N P : Nat) :
    (∀ s : SemState, SemReach N P s →
        s.finished ≤ s.launched ∧ s.launched ≤ N ∧ s.launched - s.finished ≤ P) ∧
    (1 ≤ P → SemReach N P ⟨N, N⟩) := by
  constructor
  · intro s hs
    induction hs with
    | init => simp
    | step _ hstep ih =>
      obtain ⟨i1, i2, i3⟩ := ih
      cases hstep with
      | launch h1 h2 =>
        dsimp only at h1 h2 ⊢
        omega
      | finish h1 =>
        dsimp only at h1 ⊢
        omega
  · intro hP
    have key : ∀ i : Nat, i ≤ N → SemReach N P ⟨i, i⟩ := by
      intro i
      induction i with
      | zero => intro _; exact SemReach.init
      | succ j ih =>
        intro hj
        have hr : SemReach N P ⟨j, j⟩ := ih (by omega)
        have h1 : SemReach N P ⟨j + 1, j⟩ :=
          hr.step (SemStep.launch ⟨j, j⟩ (by show j < N; omega) (by show j - j < P; omega))
        exact h1.step (SemStep.finish ⟨j + 1, j⟩ (by show j < j + 1; omega))
    exact key N (Nat.le_refl N)

/-- C2 witness: the initial state of a 3-job, limit-1 run satisfies the
bound, and the completed state is reachable. -/
theorem c2_bounded_concurrency_witness :
    ((⟨0, 0⟩ : SemState).finished ≤ (⟨0, 0⟩ : SemState).launched ∧
      (⟨0, 0⟩ : SemState).launched ≤ 3 ∧
      (⟨0, 0⟩ : SemState).launched - (⟨0, 0⟩ : SemState).finished ≤ 1) ∧
    SemReach 3 1 ⟨3, 3⟩ :=
  ⟨(c2_bounded_concurrency 3 1).1 ⟨0, 0⟩ SemReach.init,
   (c2_bounded_concurrency 3 1).2 (by decide)⟩

/-- With a zero-capacity admission gate, no worker can ever be launched:
the send guard `occupancy < 0` is unsatisfiable. -/
theorem semReach_zero_cap (M : Nat) (s : SemState) (hs : SemReach M 0 s) :
    s.launched = 0 := by
  induction hs with
  | init => rfl
  | step _ hstep ih =>
    cases hstep with
    | launch h1 h2 =>
      dsimp only at h2 ⊢
      omega
    | finish h1 =>
      dsimp only
      exact ih

/-- C3 counterexample: with concurrency limit 0 (non-positive), a valid
configuration and an empty file list, the run reports no fatal setup
error at all and completes normally — refuting the claim that any
`limit <= 0` run reports a fatal setup error. -/
theorem c3_counterexample :
    (runAfterConfig ⟨"in", "out", 75, 200, 0, "jpeg", 0⟩ false false [] []).1.isFatal = false ∧
    (runAfterConfig ⟨"in", "out", 75, 200, 0, "jpeg", 0⟩ false false [] []).1
      = .done ⟨0, 0, []⟩ := by
  decide

/-- C3 amended: the code never validates the concurrency limit and
reports no setup error for it.  Under a non-positive limit (with an
otherwise valid configuration): a negative limit panics when allocating
the semaphore channel, a zero limit deadlocks on the first slot acquire
when there is at least one file and completes normally when there are
none; in every case no `processImage` invocation is started (the
zero-capacity gate admits no launch). -/
theorem c3_amended_no_limit_validation (flags : Flags) (files order : List JobOracle)
    (hdims : ¬(flags.maxWidth = 0 ∧ flags.maxHeight = 0))
    (hp : flags.parallelism ≤ 0) :
    (runAfterConfig flags false false files order).2 = 0 ∧
    (runAfterConfig flags false false files order).1.isFatal = false ∧
    (flags.parallelism < 0 →
      (runAfterConfig flags false false files order).1 = .panicked) ∧
    (flags.parallelism = 0 → files ≠ [] →
      (runAfterConfig flags false false files order).1 = .deadlocked) ∧
    (flags.parallelism = 0 → files = [] →
      (runAfterConfig flags false false files order).1 = .done (finalStats order)) ∧
    (∀ M s, SemReach M 0 s → s.launched = 0) := by
  by_cases hneg : flags.parallelism < 0
  · have hval : runAfterConfig flags false false files order = (.panicked, 0) := by
      unfold runAfterConfig
      simp [hdims, hneg]
    refine ⟨by rw [hval], by rw [hval]; rfl, fun _ => by rw [hval], ?_, ?_, ?_⟩
    · intro hz
      omega
    · intro hz
      omega
    · exact semReach_zero_cap
  · have hz : flags.parallelism = 0 := by omega
    by_cases hfe : files = []
    · have hval : runAfterConfig flags false false files order
          = (.done (finalStats order), 0) := by
        unfold runAfterConfig
        simp [hdims, hneg, hfe]
      refine ⟨by rw [hval], by rw [hval]; rfl, fun h => absurd h hneg,
        fun _ hne => absurd hfe hne, fun _ _ => by rw [hval], semReach_zero_cap⟩
    · have hval : runAfterConfig flags false false files order = (.deadlocked, 0) := by
        unfold runAfterConfig
        have : files.isEmpty = false := by
          cases files with
          | nil => exact absurd rfl hfe
          | cons a l => rfl
        simp [hdims, hneg, hz, this]
      refine ⟨by rw [hval], by rw [hval]; rfl, fun h => absurd h hneg,
        fun _ _ => by rw [hval], fun _ h => absurd h hfe, semReach_zero_cap⟩

/-- C3 amended witness: limit 0 with no files starts zero jobs. -/
theorem c3_amended_no_limit_validation_witness :
    (runAfterConfig ⟨"in", "out", 75, 200, 0, "jpeg", 0⟩ false false [] []).2 = 0 :=
  (c3_amended_no_limit_validation ⟨"in", "out", 75, 200, 0, "jpeg", 0⟩ [] []
    (by simp) (by decide)).1

/-- C7 counterexample: with max width -1 and max height 0, neither
dimension is positive, yet the validation (which tests equality with
zero, not positivity) passes and the run completes with no fatal setup
error — refuting the claim as stated. -/
theorem c7_counterexample :
    ¬((-1 : Int) > 0) ∧ ¬((0 : Int) > 0) ∧
    (runAfterConfig ⟨"in", "out", 75, -1, 0, "jpeg", 1⟩ false false [] []).1.isFatal = false ∧
    (runAfterConfig ⟨"in", "out", 75, -1, 0, "jpeg", 1⟩ false false [] []).1
      = .done ⟨0, 0, []⟩ := by
  decide

/-- C7 amended: the run aborts with the no-dimension fatal setup error
exactly when both max width and max height are equal to zero (the line-77
check compares with zero rather than testing positivity, so negative
dimensions pass validation). -/
theorem c7_amended_dims_check (flags : Flags) (mkdirErr walkErr : Bool)
    (files order : List JobOracle) :
    (runAfterConfig flags mkdirErr walkErr files order).1 = .fatalSetup dimsMsg
      ↔ (flags.maxWidth = 0 ∧ flags.maxHeight = 0) := by
  unfold runAfterConfig
  by_cases h : flags.maxWidth = 0 ∧ flags.maxHeight = 0
  · simp [h]
  · simp only [if_neg h]
    refine iff_of_false ?_ h
    intro heq
    split_ifs at heq <;> simp [dimsMsg, mkdirMsg, walkMsg] at heq

/-- C7 amended witness: both dimensions zero yields the dimension error;
width 200 does not. -/
theorem c7_amended_dims_check_witness :
    ((runAfterConfig ⟨"in", "out", 75, 0, 0, "jpeg", 1⟩ false false [] []).1
        = RunOutcome.fatalSetup dimsMsg ↔ ((0 : Int) = 0 ∧ (0 : Int) = 0)) ∧
    ((runAfterConfig ⟨"in", "out", 75, 200, 0, "jpeg", 1⟩ false false [] []).1
        = RunOutcome.fatalSetup dimsMsg ↔ ((200 : Int) = 0 ∧ (0 : Int) = 0)) :=
  ⟨c7_amended_dims_check ⟨"in", "out", 75, 0, 0, "jpeg", 1⟩ false false [] [],
   c7_amended_dims_check ⟨"in", "out", 75, 200, 0, "jpeg", 1⟩ false false [] []⟩

/-- If every attempt numbered `att .. att + rem - 2` errors and attempt
`att + rem - 1` (the last one the budget allows) succeeds with duration
`d`, the loop records exactly a success carrying `d`. -/
theorem retryLoop_success (attempt : JobOracle) :
    ∀ (rem : Nat), ∀ (att d : Nat), 1 ≤ rem →
      (∀ i, att ≤ i → i < att + rem - 1 → attempt i = none) →
      attempt (att + rem - 1) = some d →
      retryLoop attempt att rem = some (.success d) := by
  intro rem
  induction rem with
  | zero => intro att d h; omega
  | succ r ih =>
    intro att d _ hfail hsucc
    by_cases hr : r = 0
    · subst hr
      have hidx : att + 1 - 1 = att := by omega
      rw [hidx] at hsucc
      simp [retryLoop, hsucc]
    · have hf0 : attempt att = none := by
        refine hfail att (Nat.le_refl att) ?_
        omega
      have hstep : retryLoop attempt att (r + 1) = retryLoop attempt (att + 1) r := by
        simp [retryLoop, hf0, hr]
      rw [hstep]
      refine ih (att + 1) d (by omega) ?_ ?_
      · intro i h1 h2
        refine hfail i (by omega) (by omega)
      · have : att + 1 + r - 1 = att + (r + 1) - 1 := by omega
        rw [this]
        exact hsucc

/-- If every attempt the budget allows errors, the loop records exactly
one failure. -/
theorem retryLoop_failure (attempt : JobOracle) :
    ∀ (rem : Nat), ∀ (att : Nat), 1 ≤ rem →
      (∀ i, att ≤ i → i ≤ att + rem - 1 → attempt i = none) →
      retryLoop attempt att rem = some .failure := by
  intro rem
  induction rem with
  | zero => intro att h; omega
  | succ r ih =>
    intro att _ hfail
    have hf0 : attempt att = none := hfail att (Nat.le_refl att) (by omega)
    by_cases hr : r = 0
    · subst hr
      simp [retryLoop, hf0]
    · have hstep : retryLoop attempt att (r + 1) = retryLoop attempt (att + 1) r := by
        simp [retryLoop, hf0, hr]
      rw [hstep]
      refine ih (att + 1) (by omega) ?_
      intro i h1 h2
      exact hfail i (by omega) (by omega)

/-- C4: with attempt budget k, a job failing on attempts 1..k-1 and
succeeding on attempt k records exactly one success whose recorded update
appends exactly one duration — that of attempt k alone (the failed
attempts return no duration to keep); a job failing on all k attempts
records exactly one error increment and appends no duration. -/
theorem c4_retry_outcome (k d : Nat) (attempt : JobOracle) (hk : 1 ≤ k) :
    ((∀ i, 1 ≤ i → i < k → attempt i = none) → attempt k = some d →
      jobOutcome attempt k = some (.success d) ∧
      ∀ s : RunStats, record s (.success d)
        = ⟨s.successCount + 1, s.errorCount, s.durations ++ [d]⟩) ∧
    ((∀ i, 1 ≤ i → i ≤ k → attempt i = none) →
      jobOutcome attempt k = some .failure ∧
      ∀ s : RunStats, record s .failure
        = ⟨s.successCount, s.errorCount + 1, s.durations⟩) := by
  constructor
  · intro hfail hsucc
    refine ⟨?_, fun s => rfl⟩
    unfold jobOutcome
    refine retryLoop_success attempt k 1 d hk ?_ ?_
    · intro i h1 h2
      exact hfail i h1 (by omega)
    · have : 1 + k - 1 = k := by omega
      rw [this]
      exact hsucc
  · intro hfail
    refine ⟨?_, fun s => rfl⟩
    unfold jobOutcome
    refine retryLoop_failure attempt k 1 hk ?_
    intro i h1 h2
    exact hfail i h1 (by omega)

/-- C4 witness: budget 2, failure then success with duration 5. -/
theorem c4_retry_outcome_witness :
    jobOutcome (fun i => if i = 2 then some 5 else none) 2 = some (.success 5) ∧
    record ⟨0, 0, []⟩ (.success 5) = ⟨1, 0, [5]⟩ :=
  have h := (c4_retry_outcome 2 5 (fun i => if i = 2 then some 5 else none) (by decide)).1
    (by
      intro i h1 h2
      have hi : i = 1 := by omega
      subst hi
      rfl)
    rfl
  ⟨h.1, h.2 ⟨0, 0, []⟩⟩

/-- An unrecognised output format hits the default branch of the save
switch, whatever the compression value. -/
theorem saveDispatch_unsupported (fmt : List Char) (c : Int)
    (hfmt : fmt ∉ ["jpeg".data, "png".data, "gif".data, "bmp".data]) :
    saveDispatch fmt c = .unsupported := by
  unfold saveDispatch
  simp only [List.mem_cons, List.not_mem_nil, or_false] at hfmt
  push_neg at hfmt
  obtain ⟨h1, h2, h3, h4⟩ := hfmt
  simp [h1, h2, h3, h4]

/-- C6: a job whose configured output format is outside
{jpeg, png, gif, bmp} fails on every `processImage` invocation, whatever
the external world does, and its retry sequence records a failure — never
a success — for every attempt budget k ≥ 1. -/
theorem c6_unsupported_format_always_fails (cfg : PConfig)
    (hfmt : cfg.outputFormat ∉ ["jpeg".data, "png".data, "gif".data, "bmp".data]) :
    (∀ env file, (processImage cfg env file).isOk = false) ∧
    (∀ k, 1 ≤ k → ∀ (envs : Nat → PEnv) (file : List Char),
      jobOutcome (fun i => (processImage cfg (envs i) file).toOption) k
        = some .failure) := by
  have herr : ∀ env file, (processImage cfg env file).isOk = false := by
    intro env file
    unfold processImage
    rw [saveDispatch_unsupported cfg.outputFormat cfg.compression hfmt]
    split_ifs <;> rfl
  refine ⟨herr, ?_⟩
  intro k hk envs file
  unfold jobOutcome
  refine retryLoop_failure _ k 1 hk ?_
  intro i _ _
  have h := herr (envs i) file
  cases hcase : processImage cfg (envs i) file with
  | ok v => rw [hcase] at h; exact Bool.noConfusion h
  | error e => rfl

/-- C6 witness: format "webp" always fails, with budget 3. -/
theorem c6_unsupported_format_always_fails_witness :
    (processImage ⟨"out".data, "webp".data, 75⟩ ⟨true, true, true, true, 9⟩ "a.png".data).isOk
        = false ∧
    jobOutcome
        (fun i => (processImage ⟨"out".data, "webp".data, 75⟩
          ((fun _ => ⟨true, true, true, true, 9⟩) i) "a.png".data).toOption) 3
      = some .failure :=
  ⟨(c6_unsupported_format_always_fails ⟨"out".data, "webp".data, 75⟩ (by decide)).1
      ⟨true, true, true, true, 9⟩ "a.png".data,
   (c6_unsupported_format_always_fails ⟨"out".data, "webp".data, 75⟩ (by decide)).2
      3 (by decide) (fun _ => ⟨true, true, true, true, 9⟩) "a.png".data⟩

/-! Field behaviour of the six `readConfig` key blocks. -/

@[simp] theorem applyInput_inputPath (v : Option JVal) (f : Flags) :
    (applyInput v f).inputPath
      = match v with | some (.jstr s) => s | _ => f.inputPath := by
  cases v with
  | none => rfl
  | some w => cases w <;> rfl

@[simp] theorem applyInput_outputPath (v : Option JVal) (f : Flags) :
    (applyInput v f).outputPath = f.outputPath := by
  cases v with
  | none => rfl
  | some w => cases w <;> rfl

@[simp] theorem applyInput_compression (v : Option JVal) (f : Flags) :
    (applyInput v f).compression = f.compression := by
  cases v with
  | none => rfl
  | some w => cases w <;> rfl

@[simp] theorem applyInput_maxWidth (v : Option JVal) (f : Flags) :
    (applyInput v f).maxWidth = f.maxWidth := by
  cases v with
  | none => rfl
  | some w => cases w <;> rfl

@[simp] theorem applyInput_maxHeight (v : Option JVal) (f : Flags) :
    (applyInput v f).maxHeight = f.maxHeight := by
  cases v with
  | none => rfl
  | some w => cases w <;> rfl

@[simp] theorem applyInput_outputFormat (v : Option JVal) (f : Flags) :
    (applyInput v f).outputFormat = f.outputFormat := by
  cases v with
  | none => rfl
  | some w => cases w <;> rfl

@[simp] theorem applyOutput_outputPath (v : Option JVal) (f : Flags) :
    (applyOutput v f).outputPath
      = match v with | some (.jstr s) => s | _ => f.outputPath := by
  cases v with
  | none => rfl
  | some w => cases w <;> rfl

@[simp] theorem applyOutput_inputPath (v : Option JVal) (f : Flags) :
    (applyOutput v f).inputPath = f.inputPath := by
  cases v with
  | none => rfl
  | some w => cases w <;> rfl

@[simp] theorem applyOutput_compression (v : Option JVal) (f : Flags) :
    (applyOutput v f).compression = f.compression := by
  cases v with
  | none => rfl
  | some w => cases w <;> rfl

@[simp] theorem applyOutput_maxWidth (v : Option JVal) (f : Flags) :
    (applyOutput v f).maxWidth = f.maxWidth := by
  cases v with
  | none => rfl
  | some w => cases w <;> rfl

@[simp] theorem applyOutput_maxHeight (v : Option JVal) (f : Flags) :
    (applyOutput v f).maxHeight = f.maxHeight := by
  cases v with
  | none => rfl
  | some w => cases w <;> rfl

@[simp] theorem applyOutput_outputFormat (v : Option JVal) (f : Flags) :
    (applyOutput v f).outputFormat = f.outputFormat := by
  cases v with
  | none => rfl
  | some w => cases w <;> rfl

@[simp] theorem applyCompression_compression (v : Option JVal) (f : Flags) :
    (applyCompression v f).compression
      = match v with | some (.jnum x) => x | _ => f.compression := by
  cases v with
  | none => rfl
  | some w => cases w <;> rfl

@[simp] theorem applyCompression_inputPath (v : Option JVal) (f : Flags) :
    (applyCompression v f).inputPath = f.inputPath := by
  cases v with
  | none => rfl
  | some w => cases w <;> rfl

@[simp] theorem applyCompression_outputPath (v : Option JVal) (f : Flags) :
    (applyCompression v f).outputPath = f.outputPath := by
  cases v with
  | none => rfl
  | some w => cases w <;> rfl

@[simp] theorem applyCompression_maxWidth (v : Option JVal) (f : Flags) :
    (applyCompression v f).maxWidth = f.maxWidth := by
  cases v with
  | none => rfl
  | some w => cases w <;> rfl

@[simp] theorem applyCompression_maxHeight (v : Option JVal) (f : Flags) :
    (applyCompression v f).maxHeight = f.maxHeight := by
  cases v with
  | none => rfl
  | some w => cases w <;> rfl

@[simp] theorem applyCompression_outputFormat (v : Option JVal) (f : Flags) :
    (applyCompression v f).outputFormat = f.outputFormat := by
  cases v with
  | none => rfl
  | some w => cases w <;> rfl

@[simp] theorem applyWidth_maxWidth (v : Option JVal) (f : Flags) :
    (applyWidth v f).maxWidth
      = match v with | some (.jnum x) => x | _ => f.maxWidth := by
  cases v with
  | none => rfl
  | some w => cases w <;> rfl

@[simp] theorem applyWidth_inputPath (v : Option JVal) (f : Flags) :
    (applyWidth v f).inputPath = f.inputPath := by
  cases v with
  | none => rfl
  | some w => cases w <;> rfl

@[simp] theorem applyWidth_outputPath (v : Option JVal) (f : Flags) :
    (applyWidth v f).outputPath = f.outputPath := by
  cases v with
  | none => rfl
  | some w => cases w <;> rfl

@[simp] theorem applyWidth_compression (v : Option JVal) (f : Flags) :
    (applyWidth v f).compression = f.compression := by
  cases v with
  | none => rfl
  | some w => cases w <;> rfl

@[simp] theorem applyWidth_maxHeight (v : Option JVal) (f : Flags) :
    (applyWidth v f).maxHeight = f.maxHeight := by
  cases v with
  | none => rfl
  | some w => cases w <;> rfl

@[simp] theorem applyWidth_outputFormat (v : Option JVal) (f : Flags) :
    (applyWidth v f).outputFormat = f.outputFormat := by
  cases v with
  | none => rfl
  | some w => cases w <;> rfl

@[simp] theorem applyHeight_maxHeight (v : Option JVal) (f : Flags) :
    (applyHeight v f).maxHeight
      = match v with | some (.jnum x) => x | _ => f.maxHeight := by
  cases v with
  | none => rfl
  | some w => cases w <;> rfl

@[simp] theorem applyHeight_inputPath (v : Option JVal) (f : Flags) :
    (applyHeight v f).inputPath = f.inputPath := by
  cases v with
  | none => rfl
  | some w => cases w <;> rfl

@[simp] theorem applyHeight_outputPath (v : Option JVal) (f : Flags) :
    (applyHeight v f).outputPath = f.outputPath := by
  cases v with
  | none => rfl
  | some w => cases w <;> rfl

@[simp] theorem applyHeight_compression (v : Option JVal) (f : Flags) :
    (applyHeight v f).compression = f.compression := by
  cases v with
  | none => rfl
  | some w => cases w <;> rfl

@[simp] theorem applyHeight_maxWidth (v : Option JVal) (f : Flags) :
    (applyHeight v f).maxWidth = f.maxWidth := by
  cases v with
  | none => rfl
  | some w => cases w <;> rfl

@[simp] theorem applyHeight_outputFormat (v : Option JVal) (f : Flags) :
    (applyHeight v f).outputFormat = f.outputFormat := by
  cases v with
  | none => rfl
  | some w => cases w <;> rfl

@[simp] theorem applyFormat_outputFormat (v : Option JVal) (f : Flags) :
    (applyFormat v f).outputFormat
      = match v with | some (.jstr s) => s | _ => f.outputFormat := by
  cases v with
  | none => rfl
  | some w => cases w <;> rfl

@[simp] theorem applyFormat_inputPath (v : Option JVal) (f : Flags) :
    (applyFormat v f).inputPath = f.inputPath := by
  cases v with
  | none => rfl
  | some w => cases w <;> rfl

@[simp] theorem applyFormat_outputPath (v : Option JVal) (f : Flags) :
    (applyFormat v f).outputPath = f.outputPath := by
  cases v with
  | none => rfl
  | some w => cases w <;> rfl

@[simp] theorem applyFormat_compression (v : Option JVal) (f : Flags) :
    (applyFormat v f).compression = f.compression := by
  cases v with
  | none => rfl
  | some w => cases w <;> rfl

@[simp] theorem applyFormat_maxWidth (v : Option JVal) (f : Flags) :
    (applyFormat v f).maxWidth = f.maxWidth := by
  cases v with
  | none => rfl
  | some w => cases w <;> rfl

@[simp] theorem applyFormat_maxHeight (v : Option JVal) (f : Flags) :
    (applyFormat v f).maxHeight = f.maxHeight := by
  cases v with
  | none => rfl
  | some w => cases w <;> rfl

/-- A format other than jpeg never reaches the jpeg branch, so the
encoder call it selects is independent of the compression value. -/
theorem saveDispatch_compression_indep (fmt : List Char) (c c' : Int)
    (h : fmt ≠ "jpeg".data) :
    saveDispatch fmt c = saveDispatch fmt c' := by
  unfold saveDispatch
  simp [h]

/-- C9: the compression value reaches an encoder exactly for the jpeg
format — the jpeg branch saves with `JPEGQuality(compression)` and the
png, gif and bmp branches select encoder calls independent of the
compression value — and the flag's documented default lies in 1..100. -/
theorem c9_compression_jpeg_only (fmt : List Char) (c c' : Int) :
    ((∃ q, saveDispatch fmt c = .jpegWithQuality q) ↔ fmt = "jpeg".data) ∧
    saveDispatch "jpeg".data c = .jpegWithQuality c ∧
    ((fmt = "png".data ∨ fmt = "gif".data ∨ fmt = "bmp".data) →
      saveDispatch fmt c = saveDispatch fmt c') ∧
    (1 ≤ compressionDefault ∧ compressionDefault ≤ 100) := by
  refine ⟨⟨?_, ?_⟩, by unfold saveDispatch; simp, ?_, by decide⟩
  · rintro ⟨q, hq⟩
    unfold saveDispatch at hq
    split_ifs at hq with h1 h2 h3 h4 <;> first | exact h1 | exact absurd hq (by simp)
  · rintro rfl
    exact ⟨c, by unfold saveDispatch; simp⟩
  · rintro (rfl | rfl | rfl) <;> exact saveDispatch_compression_indep _ c c' (by decide)

/-- C9 witness: png ignores the compression value; jpeg receives it. -/
theorem c9_compression_jpeg_only_witness :
    saveDispatch "png".data 30 = saveDispatch "png".data 90 ∧
    saveDispatch "jpeg".data 30 = .jpegWithQuality 30 :=
  ⟨(c9_compression_jpeg_only "png".data 30 90).2.2.1 (Or.inl rfl),
   (c9_compression_jpeg_only "png".data 30 90).2.1⟩

/-- C10: with a config file supplied, each of the six recognised keys
that is present with the expected JSON type overwrites the matching flag,
each key absent leaves its flag unchanged, and the overwriting happens
before validation: the run proceeds exactly as a run whose flags are the
overwritten ones. -/
theorem c10_config_override_frame (f : Flags) (cfg : String → Option JVal) :
    (∀ v, cfg "input" = some (.jstr v) → (readConfigApply cfg f).inputPath = v) ∧
    (cfg "input" = none → (readConfigApply cfg f).inputPath = f.inputPath) ∧
    (∀ v, cfg "output" = some (.jstr v) → (readConfigApply cfg f).outputPath = v) ∧
    (cfg "output" = none → (readConfigApply cfg f).outputPath = f.outputPath) ∧
    (∀ x, cfg "compression" = some (.jnum x) → (readConfigApply cfg f).compression = x) ∧
    (cfg "compression" = none → (readConfigApply cfg f).compression = f.compression) ∧
    (∀ x, cfg "width" = some (.jnum x) → (readConfigApply cfg f).maxWidth = x) ∧
    (cfg "width" = none → (readConfigApply cfg f).maxWidth = f.maxWidth) ∧
    (∀ x, cfg "height" = some (.jnum x) → (readConfigApply cfg f).maxHeight = x) ∧
    (cfg "height" = none → (readConfigApply cfg f).maxHeight = f.maxHeight) ∧
    (∀ v, cfg "format" = some (.jstr v) → (readConfigApply cfg f).outputFormat = v) ∧
    (cfg "format" = none → (readConfigApply cfg f).outputFormat = f.outputFormat) ∧
    (∀ (m : String → Option JVal) (mkdirErr walkErr : Bool) (files order : List JobOracle),
      runModel (some (.ok m)) f mkdirErr walkErr files order
        = runAfterConfig (readConfigApply m f) mkdirErr walkErr files order) := by
  refine ⟨?_, ?_, ?_, ?_, ?_, ?_, ?_, ?_, ?_, ?_, ?_, ?_, fun m e w fs o => rfl⟩ <;>
    first
    | (intro v h; simp [readConfigApply, h])
    | (intro h; simp [readConfigApply, h])

/-- C10 witness: a config carrying only `width` sets the width flag and
leaves the input flag as the command line set it. -/
theorem c10_config_override_frame_witness :
    (readConfigApply (fun k => if k = "width" then some (.jnum 300) else none)
        ⟨"a", "b", 75, 0, 0, "jpeg", 4⟩).maxWidth = 300 ∧
    (readConfigApply (fun k => if k = "width" then some (.jnum 300) else none)
        ⟨"a", "b", 75, 0, 0, "jpeg", 4⟩).inputPath = "a" :=
  have h := c10_config_override_frame ⟨"a", "b", 75, 0, 0, "jpeg", 4⟩
    (fun k => if k = "width" then some (.jnum 300) else none)
  ⟨h.2.2.2.2.2.2.1 300 (by decide), h.2.1 (by decide)⟩

/-! Path-name lemmas for the cr3 rename. -/

/-- Trimming a suffix just appended gives back the stem. -/
theorem trimSuffixChars_append (x s : List Char) :
    trimSuffixChars (x ++ s) s = x := by
  unfold trimSuffixChars
  rw [if_pos (by rw [List.isSuffixOf_iff_suffix]; exact List.suffix_append x s)]
  have hlen : (x ++ s).length - s.length = x.length := by
    simp
  rw [hlen, List.take_left]

/-- Base of a path ending in a dot followed by three non-separator
characters: the reversed tail of the stem after its last separator,
re-reversed, with the four extension characters appended. -/
theorem goBaseChars_dotExt (p : List Char) (a b c : Char)
    (ha : a ≠ '/') (hb : b ≠ '/') (hc : c ≠ '/') :
    goBaseChars (p ++ ['.', a, b, c])
      = (p.reverse.takeWhile (fun ch => ch ≠ '/')).reverse ++ ['.', a, b, c] := by
  have h1 : ¬(p ++ ['.', a, b, c] = []) := by simp
  have h2 : (p ++ ['.', a, b, c]).reverse = c :: b :: a :: '.' :: p.reverse := by simp
  unfold goBaseChars
  rw [if_neg h1, h2]
  simp [List.dropWhile_cons, List.takeWhile_cons, ha, hb, hc]

/-- Extension of such a path: exactly the dot and the three characters. -/
theorem goExtChars_dotExt (p : List Char) (a b c : Char)
    (ha : a ≠ '/' ∧ a ≠ '.') (hb : b ≠ '/' ∧ b ≠ '.') (hc : c ≠ '/' ∧ c ≠ '.') :
    goExtChars (p ++ ['.', a, b, c]) = ['.', a, b, c] := by
  have hrev : (p ++ ['.', a, b, c]).reverse = c :: b :: a :: '.' :: p.reverse := by simp
  unfold goExtChars
  rw [hrev]
  simp [List.takeWhile_cons, ha.1, ha.2, hb.1, hb.2, hc.1, hc.2]

/-- The basename-without-extension of a path ending in `.<xyz>` does not
depend on which three (non-separator, non-dot) characters spell the
extension. -/
theorem baseNoExt_dotExt (p : List Char) (a b c : Char)
    (ha : a ≠ '/' ∧ a ≠ '.') (hb : b ≠ '/' ∧ b ≠ '.') (hc : c ≠ '/' ∧ c ≠ '.') :
    trimSuffixChars (goBaseChars (p ++ ['.', a, b, c])) (goExtChars (p ++ ['.', a, b, c]))
      = (p.reverse.takeWhile (fun ch => ch ≠ '/')).reverse := by
  rw [goBaseChars_dotExt p a b c ha.1 hb.1 hc.1,
      goExtChars_dotExt p a b c ha hb hc,
      trimSuffixChars_append]

/-- C8: the path `processImage` saves to is the flat output directory
joined with the original input's basename stripped of its extension plus
a dot and the configured format — also for `.cr3` sources, where the
basename is computed from the exiftool-produced `.jpg` sibling, whose
stem coincides with the original's — and every invocation that returns
success invoked `imaging.Save` on exactly that one path. -/
theorem c8_output_file_naming (cfg : PConfig) (file : List Char) :
    outputFileOf cfg.outputPath cfg.outputFormat file
      = cfg.outputPath ++ '/' ::
          (trimSuffixChars (goBaseChars file) (goExtChars file) ++ '.' :: cfg.outputFormat) ∧
    (∀ env, (processImage cfg env file).isOk = true →
      savedOutputs cfg env file = [outputFileOf cfg.outputPath cfg.outputFormat file]) := by
  constructor
  · unfold outputFileOf effectiveFileChars
    by_cases hsuf : ".cr3".data.isSuffixOf file
    · rw [if_pos hsuf]
      rw [List.isSuffixOf_iff_suffix] at hsuf
      obtain ⟨x, rfl⟩ := hsuf
      rw [trimSuffixChars_append]
      have h1 := baseNoExt_dotExt x 'j' 'p' 'g' (by decide) (by decide) (by decide)
      have h2 := baseNoExt_dotExt x 'c' 'r' '3' (by decide) (by decide) (by decide)
      rw [show (".jpg".data : List Char) = ['.', 'j', 'p', 'g'] from rfl,
          show (".cr3".data : List Char) = ['.', 'c', 'r', '3'] from rfl]
      rw [h1, h2]
    · rw [if_neg hsuf]
  · intro env h
    unfold processImage at h
    unfold savedOutputs
    by_cases h1 : ".cr3".data.isSuffixOf file ∧ env.exiftoolOk = false
    · rw [if_pos h1] at h
      exact Bool.noConfusion h
    · rw [if_neg h1] at h
      rw [if_neg h1]
      by_cases h2 : env.openOk = false
      · rw [if_pos h2] at h
        exact Bool.noConfusion h
      · rw [if_neg h2] at h ⊢
        by_cases h3 : env.decodeOk = false
        · rw [if_pos h3] at h
          exact Bool.noConfusion h
        · rw [if_neg h3] at h ⊢
          cases hsd : saveDispatch cfg.outputFormat cfg.compression with
          | unsupported =>
            rw [hsd] at h
            exact Bool.noConfusion h
          | jpegWithQuality q => rfl
          | plain => rfl

/-- C8 witness: a cr3 source in a subdirectory lands in the output
directory under its own stem with the configured format's extension. -/
theorem c8_output_file_naming_witness :
    outputFileOf "out".data "jpeg".data "dir/pic.cr3".data
      = "out".data ++ '/' ::
          (trimSuffixChars (goBaseChars "dir/pic.cr3".data) (goExtChars "dir/pic.cr3".data)
            ++ '.' :: "jpeg".data) ∧
    savedOutputs ⟨"out".data, "jpeg".data, 75⟩ ⟨true, true, true, true, 5⟩ "dir/pic.cr3".data
      = [outputFileOf "out".data "jpeg".data "dir/pic.cr3".data] :=
  ⟨(c8_output_file_naming ⟨"out".data, "jpeg".data, 75⟩ "dir/pic.cr3".data).1,
   (c8_output_file_naming ⟨"out".data, "jpeg".data, 75⟩ "dir/pic.cr3".data).2
     ⟨true, true, true, true, 5⟩ (by decide)⟩

/-! String-joining lemmas for the report. -/

theorem strFoldl_acc (l : List String) :
    ∀ a : String, List.foldl (· ++ ·) a l = a ++ String.join l := by
  induction l with
  | nil =>
    intro a
    rw [List.foldl_nil, show String.join [] = "" from rfl, String.append_empty]
  | cons x t ih =>
    intro a
    rw [List.foldl_cons, ih (a ++ x),
        show String.join (x :: t) = List.foldl (· ++ ·) ("" ++ x) t from rfl,
        ih ("" ++ x), String.empty_append, String.append_assoc]

theorem strJoin_cons (s : String) (l : List String) :
    String.join (s :: l) = s ++ String.join l := by
  rw [show String.join (s :: l) = List.foldl (· ++ ·) ("" ++ s) l from rfl,
      strFoldl_acc, String.empty_append]

theorem strJoin_nil : String.join ([] : List String) = "" := rfl

theorem strJoin_append (l1 l2 : List String) :
    String.join (l1 ++ l2) = String.join l1 ++ String.join l2 := by
  induction l1 with
  | nil => rw [List.nil_append, strJoin_nil, String.empty_append]
  | cons x t ih => rw [List.cons_append, strJoin_cons, strJoin_cons, ih, String.append_assoc]

theorem strFoldl_append_join {α : Type} (f : α → String) (l : List α) :
    ∀ init : String, l.foldl (fun r x => r ++ f x) init = init ++ String.join (l.map f) := by
  induction l with
  | nil =>
    intro init
    rw [List.foldl_nil, List.map_nil, strJoin_nil, String.append_empty]
  | cons x t ih =>
    intro init
    rw [List.foldl_cons, ih (init ++ f x), List.map_cons, strJoin_cons, String.append_assoc]

/-- The `Sprintf` header equals the newline-joined header line list. -/
theorem summaryHeader_lines (total success errors duration : Nat) :
    summaryHeader total success errors duration
      = String.join ((reportHeaderLines total success errors duration).map
          (fun ln => ln ++ "\n")) := by
  simp only [reportHeaderLines, List.map_cons, List.map_nil, strJoin_cons, strJoin_nil,
    String.append_empty]
  apply String.ext
  simp only [summaryHeader, fmtDuration, String.data_append, List.append_assoc]
  rfl

/-- C5: on a completed run the summary report is exactly the five header
lines followed by one numbered line per recorded successful-job duration,
in recorded order, each line newline-terminated; the numbered lines
enumerate exactly the recorded durations, and their count equals the
success count, not the total job count. -/
theorem c5_report_structure (files order : List JobOracle) (hperm : order.Perm files)
    (wallClock : Nat) :
    generateSummaryReport files.length (finalStats order).successCount
        (finalStats order).errorCount wallClock (finalStats order).durations
      = String.join
          ((reportHeaderLines files.length (finalStats order).successCount
              (finalStats order).errorCount wallClock
            ++ (finalStats order).durations.enum.map (fun p => imageLine (p.1 + 1) p.2)).map
            (fun ln => ln ++ "\n")) ∧
    ((finalStats order).durations.enum.map (fun p => imageLine (p.1 + 1) p.2)).length
      = (finalStats order).successCount := by
  constructor
  · unfold generateSummaryReport
    rw [strFoldl_append_join, List.map_append, strJoin_append, summaryHeader_lines,
        List.map_map]
    rfl
  · rw [List.length_map, List.enum_length, finalStats_durlen]

/-- C5 witness: a run with one success and one failure yields one
numbered line. -/
theorem c5_report_structure_witness :
    ((finalStats [fun _ => some 3, fun _ => none]).durations.enum.map
        (fun p => imageLine (p.1 + 1) p.2)).length
      = (finalStats [fun _ => some 3, fun _ => none]).successCount :=
  (c5_report_structure [fun _ => some 3, fun _ => none] [fun _ => some 3, fun _ => none]
    (List.Perm.refl _) 100).2

end Thumbnailer
